import Mathlib

/-!
Verification of the percent-composition calculator (`src/src/App.tsx`).

The component's logical core is a small reactive state (four numeric
inputs keyed by element id, plus a mode flag) with derived values
(`elementMasses`, `totalMass`, `percentages`, `chartData`) recomputed
from the state.  We embed that core shallowly: JavaScript numbers are
modelled as exact rationals (ℚ), the input record as a total function
`ElemId → ℚ`, and the event handlers as state-to-state functions.
-/

/-- The two input modes, `'mass' | 'molar'` in the source. -/
inductive Mode where
  | mass
  | molar
deriving DecidableEq, Repr

/-- The four fixed element ids `C`, `H`, `O`, `N` used as record keys. -/
inductive ElemId where
  | C
  | H
  | O
  | N
deriving DecidableEq, Repr

/-- Static per-element reference data, mirroring `interface ElementData`. -/
structure ElementData where
  id : ElemId
  name : String
  color : String
  bgColor : String
  atomicMass : ℚ
deriving DecidableEq, Repr

def carbonEl : ElementData :=
  { id := .C, name := "Carbon", color := "#1f2937", bgColor := "bg-gray-800", atomicMass := 12.011 }

def hydrogenEl : ElementData :=
  { id := .H, name := "Hydrogen", color := "#60a5fa", bgColor := "bg-blue-400", atomicMass := 1.008 }

def oxygenEl : ElementData :=
  { id := .O, name := "Oxygen", color := "#ef4444", bgColor := "bg-red-500", atomicMass := 15.999 }

def nitrogenEl : ElementData :=
  { id := .N, name := "Nitrogen", color := "#f59e0b", bgColor := "bg-amber-500", atomicMass := 14.007 }

/-- The fixed element table `ELEMENTS`, in source order C, H, O, N. -/
def ELEMENTS : List ElementData := [carbonEl, hydrogenEl, oxygenEl, nitrogenEl]

/-- The unique entry of `ELEMENTS` carrying a given id (ids are unique in the table). -/
def findElement : ElemId → ElementData
  | .C => carbonEl
  | .H => hydrogenEl
  | .O => oxygenEl
  | .N => nitrogenEl

/-- The component state: `useState<Mode>('mass')` and the inputs record
`{C: 0, H: 0, O: 0, N: 0}`, modelled as a total function on the four keys. -/
structure LabState where
  mode : Mode
  inputs : ElemId → ℚ

/-- The initial state: mode `'mass'`, all inputs `0`. -/
def initState : LabState := { mode := .mass, inputs := fun _ => 0 }

/-- Model of the JavaScript builtin `parseFloat`, restricted to finite
decimal literals: leading whitespace is skipped, then an optional sign,
integer digits, and an optional fraction after `'.'` are read; `none`
models the `NaN` result when no digit is found. -/
def digitsToNat (ds : List Char) : Nat :=
  ds.foldl (fun acc c => acc * 10 + (c.toNat - 48)) 0

/-- Splits an optional leading sign off a character list, returning the
sign as `±1` together with the remaining characters. -/
def splitSign (cs : List Char) : ℚ × List Char :=
  match cs with
  | [] => (1, [])
  | c :: rest => if c == '-' then (-1, rest) else if c == '+' then (1, rest) else (1, c :: rest)

/-- The fraction digits following a leading `'.'`, if any. -/
def fracDigits (cs : List Char) : List Char :=
  match cs with
  | [] => []
  | c :: rest => if c == '.' then rest.takeWhile Char.isDigit else []

def jsParseFloat (s : String) : Option ℚ :=
  let cs := s.data.dropWhile (fun c => c == ' ' || c == '\t' || c == '\n' || c == '\r')
  let sr := splitSign cs
  let sign := sr.1
  let cs1 := sr.2
  let intDs := cs1.takeWhile Char.isDigit
  let cs2 := cs1.dropWhile Char.isDigit
  let fracDs := fracDigits cs2
  if intDs.isEmpty && fracDs.isEmpty then none
  else some (sign * ((digitsToNat intDs : ℚ) + (digitsToNat fracDs : ℚ) / 10 ^ fracDs.length))

/-- `handleInputChange`: parse the raw string, store `0` on `NaN`,
otherwise `Math.max(0, num)`, updating only the entry for `id`
(the record spread `{...prev, [id]: v}`). -/
def handleInputChange (st : LabState) (id : ElemId) (value : String) : LabState :=
  let num := jsParseFloat value
  { st with
    inputs := Function.update st.inputs id
      (match num with
       | none => 0
       | some n => max 0 n) }

/-- `resetInputs`: sets the inputs record back to all zeros; mode untouched. -/
def resetInputs (st : LabState) : LabState :=
  { st with inputs := fun _ => 0 }

/-- `setMode`: the `useState` setter for the mode flag; inputs untouched. -/
def setMode (st : LabState) (m : Mode) : LabState :=
  { st with mode := m }

/-- `elementMasses`: per element, the raw input in `'mass'` mode, else
input × atomic mass.  The source's `inputs[el.id] || 0` fallback is the
identity here because the inputs record is total and `0 || 0 = 0`. -/
def elementMasses (st : LabState) (id : ElemId) : ℚ :=
  let el := findElement id
  let val := st.inputs el.id
  if st.mode = Mode.mass then val else val * el.atomicMass

/-- `totalMass`: the sum of the four per-element masses
(`Object.values(elementMasses).reduce((sum, mass) => sum + mass, 0)`). -/
def totalMass (st : LabState) : ℚ :=
  (ELEMENTS.map (fun el => elementMasses st el.id)).sum

/-- `percentages`: `(mass / total) * 100` guarded by `totalMass > 0`,
else `0`. -/
def percentages (st : LabState) (id : ElemId) : ℚ :=
  if totalMass st > 0 then elementMasses st id / totalMass st * 100 else 0

/-- One entry of `chartData`: `{ name, value, color }`. -/
structure ChartSlice where
  name : String
  value : ℚ
  color : String
deriving DecidableEq, Repr

/-- `chartData`: the elements with strictly positive mass, in table
order, mapped to `{name, value: percentage, color}`. -/
def chartData (st : LabState) : List ChartSlice :=
  (ELEMENTS.filter (fun el => decide (elementMasses st el.id > 0))).map
    (fun el => { name := el.name, value := percentages st el.id, color := el.color })

/-- The operations the UI can perform on the state. -/
inductive Op where
  | setQuantity (id : ElemId) (raw : String)
  | setMode (m : Mode)
  | reset

/-- One UI event applied to the state. -/
def step (st : LabState) : Op → LabState
  | .setQuantity id raw => handleInputChange st id raw
  | .setMode m => setMode st m
  | .reset => resetInputs st

/-- The state reached from the initial state by a sequence of UI events. -/
def run (ops : List Op) : LabState :=
  ops.foldl step initState

/-- All four stored quantities of a state are non-negative (the
`InputState` invariant). -/
def allInputsNonneg (st : LabState) : Prop :=
  ∀ id : ElemId, 0 ≤ st.inputs id

/-- The example state of the spec's ByMass scenario: inputs `{C: 12, H: 4}`,
all other quantities `0`, mode `'mass'`. -/
def exampleState : LabState :=
  { mode := .mass
    inputs := fun id => match id with | .C => 12 | .H => 4 | _ => 0 }

/-! ### Helper lemmas -/

lemma findElement_id (id : ElemId) : (findElement id).id = id := by
  cases id <;> rfl

lemma findElement_atomicMass_pos (id : ElemId) : 0 < (findElement id).atomicMass := by
  cases id <;> norm_num [findElement, carbonEl, hydrogenEl, oxygenEl, nitrogenEl]

/-- `totalMass` written out as the four-term sum over C, H, O, N. -/
lemma totalMass_eq (st : LabState) :
    totalMass st =
      elementMasses st .C + elementMasses st .H + elementMasses st .O + elementMasses st .N := by
  simp [totalMass, ELEMENTS, carbonEl, hydrogenEl, oxygenEl, nitrogenEl]
  ring

lemma elementMasses_nonneg (st : LabState) {id : ElemId} (h : 0 ≤ st.inputs id) :
    0 ≤ elementMasses st id := by
  rw [elementMasses]
  rw [findElement_id]
  split
  · exact h
  · exact mul_nonneg h (findElement_atomicMass_pos id).le

lemma totalMass_nonneg (st : LabState) (h : allInputsNonneg st) : 0 ≤ totalMass st := by
  rw [totalMass_eq]
  have hC := elementMasses_nonneg st (h .C)
  have hH := elementMasses_nonneg st (h .H)
  have hO := elementMasses_nonneg st (h .O)
  have hN := elementMasses_nonneg st (h .N)
  linarith

lemma elementMasses_le_totalMass (st : LabState) (h : allInputsNonneg st) (id : ElemId) :
    elementMasses st id ≤ totalMass st := by
  rw [totalMass_eq]
  have hC := elementMasses_nonneg st (h .C)
  have hH := elementMasses_nonneg st (h .H)
  have hO := elementMasses_nonneg st (h .O)
  have hN := elementMasses_nonneg st (h .N)
  cases id <;> linarith

/-- If the total is zero and the inputs are non-negative, every single
per-element mass is zero. -/
lemma elementMasses_eq_zero_of_total_zero (st : LabState) (h : allInputsNonneg st)
    (ht : totalMass st = 0) (id : ElemId) : elementMasses st id = 0 := by
  have hle := elementMasses_le_totalMass st h id
  have hge := elementMasses_nonneg st (h id)
  rw [ht] at hle
  linarith

/-- The stored value written by `handleInputChange` is never negative. -/
lemma handleInputChange_stored_nonneg (st : LabState) (id : ElemId) (raw : String) :
    0 ≤ (handleInputChange st id raw).inputs id := by
  simp only [handleInputChange, Function.update_same]
  cases jsParseFloat raw with
  | none => norm_num
  | some n => exact le_max_left 0 n

/-- Every operation preserves non-negativity of all stored inputs. -/
lemma step_preserves_nonneg (st : LabState) (op : Op) (h : allInputsNonneg st) :
    allInputsNonneg (step st op) := by
  intro id
  cases op with
  | setQuantity id' raw =>
    by_cases hid : id = id'
    · subst hid
      exact handleInputChange_stored_nonneg st id raw
    · simp only [step, handleInputChange, Function.update_apply, if_neg hid]
      exact h id
  | setMode m => exact h id
  | reset => norm_num [step, resetInputs]

lemma foldl_preserves_nonneg (ops : List Op) (st : LabState) (h : allInputsNonneg st) :
    allInputsNonneg (ops.foldl step st) := by
  induction ops generalizing st with
  | nil => exact h
  | cons op ops ih => exact ih (step st op) (step_preserves_nonneg st op h)

lemma run_nonneg (ops : List Op) : allInputsNonneg (run ops) := by
  refine foldl_preserves_nonneg ops initState ?_
  intro id
  norm_num [initState]

lemma jsParseFloat_neg5 : jsParseFloat "-5" = some (-5) := by
  simp +decide [jsParseFloat, digitsToNat, splitSign, fracDigits]

lemma jsParseFloat_abc : jsParseFloat "abc" = none := by
  simp +decide [jsParseFloat, digitsToNat, splitSign, fracDigits]

lemma jsParseFloat_75 : jsParseFloat "7.5" = some 7.5 := by
  simp +decide [jsParseFloat, digitsToNat, splitSign, fracDigits]
  norm_num

lemma jsParseFloat_5 : jsParseFloat "5" = some 5 := by
  simp +decide [jsParseFloat, digitsToNat, splitSign, fracDigits]

lemma exampleState_inputs_nonneg : allInputsNonneg exampleState := by
  intro id
  cases id <;> norm_num [exampleState]

lemma exampleState_totalMass : totalMass exampleState = 16 := by
  norm_num [totalMass, elementMasses, ELEMENTS, exampleState, findElement,
    carbonEl, hydrogenEl, oxygenEl, nitrogenEl]

lemma exampleState_percC : percentages exampleState .C = 75 := by
  norm_num [percentages, totalMass, elementMasses, ELEMENTS, exampleState, findElement,
    carbonEl, hydrogenEl, oxygenEl, nitrogenEl]

lemma exampleState_percH : percentages exampleState .H = 25 := by
  norm_num [percentages, totalMass, elementMasses, ELEMENTS, exampleState, findElement,
    carbonEl, hydrogenEl, oxygenEl, nitrogenEl]

lemma totalMass_initState : totalMass initState = 0 := by
  norm_num [totalMass, elementMasses, ELEMENTS, initState, findElement,
    carbonEl, hydrogenEl, oxygenEl, nitrogenEl]

/-! ### Claim theorems -/

/-- C1: for every input state with all stored quantities non-negative and
derived total strictly positive, the percentages of the four elements sum
to exactly 100 (the exact-rational embedding makes the floating-point
tolerance unnecessary). -/
theorem sum_percentages_eq_100 (st : LabState) (h : allInputsNonneg st)
    (ht : 0 < totalMass st) :
    percentages st .C + percentages st .H + percentages st .O + percentages st .N = 100 := by
  have hT := totalMass_eq st
  have hT0 : totalMass st ≠ 0 := ne_of_gt ht
  simp only [percentages, if_pos ht]
  field_simp
  linarith [hT]

/-- Witness for C1 at the concrete state `{C: 12, H: 4}` in mass mode. -/
theorem sum_percentages_eq_100_witness :
    allInputsNonneg exampleState ∧ 0 < totalMass exampleState ∧
    percentages exampleState .C + percentages exampleState .H +
      percentages exampleState .O + percentages exampleState .N = 100 := by
  have ht : 0 < totalMass exampleState := by
    rw [exampleState_totalMass]
    norm_num
  exact ⟨exampleState_inputs_nonneg, ht,
    sum_percentages_eq_100 exampleState exampleState_inputs_nonneg ht⟩

/-- C2: after any sequence of `setQuantity`/`setMode`/`reset` operations,
every derived value (per-element mass, total, percentage) is non-negative,
and a zero total yields `0` for every percentage.  In this exact-rational
embedding the division is guarded by `totalMass > 0`, so the `NaN`/
`Infinity` artifacts the spec rules out cannot arise. -/
theorem derived_values_safe (ops : List Op) (id : ElemId) :
    0 ≤ elementMasses (run ops) id ∧ 0 ≤ totalMass (run ops) ∧
    0 ≤ percentages (run ops) id ∧
    (totalMass (run ops) = 0 → percentages (run ops) id = 0) := by
  have h := run_nonneg ops
  refine ⟨elementMasses_nonneg _ (h id), totalMass_nonneg _ h, ?_, ?_⟩
  · rw [percentages]
    split
    · next ht =>
      exact mul_nonneg (div_nonneg (elementMasses_nonneg _ (h id)) (le_of_lt ht)) (by norm_num)
    · exact le_refl 0
  · intro ht
    simp [percentages, ht]

/-- Witness for C2: the empty operation sequence, i.e. the initial state,
where the total is `0` and the zero-total branch yields percentage `0`. -/
theorem derived_values_safe_witness :
    0 ≤ elementMasses (run []) ElemId.C ∧ totalMass (run []) = 0 ∧
    percentages (run []) ElemId.C = 0 := by
  have h := derived_values_safe [] ElemId.C
  exact ⟨h.1, totalMass_initState, h.2.2.2 totalMass_initState⟩

/-- C3: `setQuantity` stores `0` when the raw string does not parse or
parses to a negative number, and stores the parsed value unchanged
otherwise; the operation is a total function (it cannot fail), and the
concrete inputs `"-5"` and `"abc"` both store `0`. -/
theorem setQuantity_parse_clamp (st : LabState) (id : ElemId) (raw : String) :
    (jsParseFloat raw = none → (handleInputChange st id raw).inputs id = 0) ∧
    (∀ q : ℚ, jsParseFloat raw = some q → q < 0 → (handleInputChange st id raw).inputs id = 0) ∧
    (∀ q : ℚ, jsParseFloat raw = some q → 0 ≤ q → (handleInputChange st id raw).inputs id = q) ∧
    (handleInputChange st id "-5").inputs id = 0 ∧
    (handleInputChange st id "abc").inputs id = 0 := by
  have key : ∀ r : String, (handleInputChange st id r).inputs id =
      (match jsParseFloat r with | none => 0 | some n => max 0 n) := by
    intro r
    simp [handleInputChange, Function.update_same]
  refine ⟨?_, ?_, ?_, ?_, ?_⟩
  · intro hn
    rw [key, hn]
  · intro q hq hneg
    rw [key, hq]
    simp [max_eq_left hneg.le]
  · intro q hq hpos
    rw [key, hq]
    simp [max_eq_right hpos]
  · rw [key, jsParseFloat_neg5]
    norm_num
  · rw [key, jsParseFloat_abc]

/-- Witness for C3: `"7.5"` parses to a non-negative value stored
unchanged, while `"-5"` stores `0`. -/
theorem setQuantity_parse_clamp_witness :
    jsParseFloat "7.5" = some 7.5 ∧ (0 : ℚ) ≤ 7.5 ∧
    (handleInputChange initState .C "7.5").inputs .C = 7.5 ∧
    (handleInputChange initState .C "-5").inputs .C = 0 := by
  refine ⟨jsParseFloat_75, by norm_num, ?_, ?_⟩
  · exact (setQuantity_parse_clamp initState .C "7.5").2.2.1 7.5 jsParseFloat_75 (by norm_num)
  · exact (setQuantity_parse_clamp initState .C "7.5").2.2.2.1

/-- C4: per-element contribution is the stored quantity in `'mass'` mode
and quantity × atomic mass in `'molar'` mode, the total is the sum of the
four contributions, and the spec's ByMass scenario `{C: 12, H: 4}` yields
total `16`, `percentage[C] = 75`, `percentage[H] = 25`. -/
theorem contribution_total_example :
    (∀ st : LabState, st.mode = Mode.mass → ∀ id, elementMasses st id = st.inputs id) ∧
    (∀ st : LabState, st.mode = Mode.molar → ∀ id,
        elementMasses st id = st.inputs id * (findElement id).atomicMass) ∧
    (∀ st : LabState, totalMass st =
        elementMasses st .C + elementMasses st .H + elementMasses st .O + elementMasses st .N) ∧
    totalMass exampleState = 16 ∧
    percentages exampleState .C = 75 ∧ percentages exampleState .H = 25 := by
  refine ⟨?_, ?_, totalMass_eq, exampleState_totalMass, exampleState_percC, exampleState_percH⟩
  · intro st hm id
    simp [elementMasses, findElement_id, hm]
  · intro st hm id
    simp [elementMasses, findElement_id, hm]

/-- Witness for C4: the mass-mode example state, where the contribution
of `C` is its stored quantity and the total is `16`. -/
theorem contribution_total_example_witness :
    exampleState.mode = Mode.mass ∧
    elementMasses exampleState .C = exampleState.inputs .C ∧
    totalMass exampleState = 16 :=
  ⟨rfl, contribution_total_example.1 exampleState rfl .C, contribution_total_example.2.2.2.1⟩

/-- C5: `chartData` consists exactly of the elements with strictly
positive contribution, each paired with its percentage, its entries keep
the fixed table order C, H, O, N (its name sequence is a sublist of the
table's name sequence), and a zero total gives the empty list. -/
theorem chartData_spec (st : LabState) (h : allInputsNonneg st) :
    (∀ el ∈ ELEMENTS, 0 < elementMasses st el.id →
        ChartSlice.mk el.name (percentages st el.id) el.color ∈ chartData st) ∧
    (∀ s ∈ chartData st, ∃ el ∈ ELEMENTS, 0 < elementMasses st el.id ∧
        s = ChartSlice.mk el.name (percentages st el.id) el.color) ∧
    List.Sublist ((chartData st).map ChartSlice.name) (ELEMENTS.map ElementData.name) ∧
    (totalMass st = 0 → chartData st = []) := by
  refine ⟨?_, ?_, ?_, ?_⟩
  · intro el hel hpos
    exact List.mem_map.mpr ⟨el, List.mem_filter.mpr ⟨hel, by simp [hpos]⟩, rfl⟩
  · intro s hs
    obtain ⟨el, helf, heq⟩ := List.mem_map.mp hs
    obtain ⟨hel, hp⟩ := List.mem_filter.mp helf
    exact ⟨el, hel, by simpa using hp, heq.symm⟩
  · have hmap : (chartData st).map ChartSlice.name =
        (ELEMENTS.filter (fun el => decide (elementMasses st el.id > 0))).map ElementData.name := by
      simp [chartData, List.map_map, Function.comp]
    rw [hmap]
    exact List.Sublist.map ElementData.name (List.filter_sublist ELEMENTS)
  · intro ht
    have hC := elementMasses_eq_zero_of_total_zero st h ht .C
    have hH := elementMasses_eq_zero_of_total_zero st h ht .H
    have hO := elementMasses_eq_zero_of_total_zero st h ht .O
    have hN := elementMasses_eq_zero_of_total_zero st h ht .N
    simp [chartData, ELEMENTS, carbonEl, hydrogenEl, oxygenEl, nitrogenEl, hC, hH, hO, hN]

/-- Witness for C5: the all-zero initial state has zero total and an
empty chart list. -/
theorem chartData_spec_witness :
    allInputsNonneg initState ∧ totalMass initState = 0 ∧ chartData initState = [] := by
  have h0 : allInputsNonneg initState := by
    intro id
    norm_num [initState]
  exact ⟨h0, totalMass_initState, (chartData_spec initState h0).2.2.2 totalMass_initState⟩

/-- C6: every stored quantity is non-negative in the initial state and
after every sequence of operations — invalid or negative raw values are
clamped to `0` by `handleInputChange`, never rejected, so non-negativity
is an invariant of every reachable state (`ops = []` is the initial
state). -/
theorem inputState_nonneg_invariant (ops : List Op) (id : ElemId) :
    0 ≤ (run ops).inputs id :=
  run_nonneg ops id

/-- C7: `resetInputs` zeroes every stored quantity and keeps the mode,
and the subsequently derived total and percentages are all `0`, whatever
the mode. -/
theorem reset_spec (st : LabState) (id : ElemId) :
    (resetInputs st).inputs id = 0 ∧ (resetInputs st).mode = st.mode ∧
    totalMass (resetInputs st) = 0 ∧ percentages (resetInputs st) id = 0 := by
  have hz : ∀ j : ElemId, elementMasses (resetInputs st) j = 0 := by
    intro j
    simp [elementMasses, resetInputs]
  have ht : totalMass (resetInputs st) = 0 := by
    rw [totalMass_eq]
    simp [hz]
  refine ⟨rfl, rfl, ht, ?_⟩
  simp [percentages, ht]

/-- C8: `handleInputChange` updates only the targeted element's stored
quantity: every other element's quantity and the mode are unchanged. -/
theorem setQuantity_frame (st : LabState) (id idOther : ElemId) (raw : String)
    (h : idOther ≠ id) :
    (handleInputChange st id raw).inputs idOther = st.inputs idOther ∧
    (handleInputChange st id raw).mode = st.mode := by
  constructor
  · simp [handleInputChange, Function.update_apply, h]
  · rfl

/-- Witness for C8: updating `C` leaves `H` and the mode untouched. -/
theorem setQuantity_frame_witness :
    ElemId.H ≠ ElemId.C ∧
    ((handleInputChange initState .C "5").inputs .H = initState.inputs .H ∧
     (handleInputChange initState .C "5").mode = initState.mode) :=
  ⟨by decide, setQuantity_frame initState .C .H "5" (by decide)⟩

/-- C9: `setMode` replaces only the mode and leaves every stored quantity
unchanged. -/
theorem setMode_frame (st : LabState) (m : Mode) (id : ElemId) :
    (setMode st m).mode = m ∧ (setMode st m).inputs id = st.inputs id :=
  ⟨rfl, rfl⟩

/-- C10: with non-negative stored quantities, every percentage lies
between `0` and `100` (each contribution never exceeds the total). -/
theorem percentages_bounded (st : LabState) (h : allInputsNonneg st) (id : ElemId) :
    0 ≤ percentages st id ∧ percentages st id ≤ 100 := by
  rw [percentages]
  split
  · next ht =>
    have hm := elementMasses_nonneg st (h id)
    have hle := elementMasses_le_totalMass st h id
    constructor
    · exact mul_nonneg (div_nonneg hm (le_of_lt ht)) (by norm_num)
    · rw [div_mul_eq_mul_div, div_le_iff₀ ht]
      linarith
  · norm_num

/-- Witness for C10 at the concrete state `{C: 12, H: 4}` in mass mode. -/
theorem percentages_bounded_witness :
    allInputsNonneg exampleState ∧
    (0 ≤ percentages exampleState .C ∧ percentages exampleState .C ≤ 100) :=
  ⟨exampleState_inputs_nonneg, percentages_bounded exampleState exampleState_inputs_nonneg .C⟩
